import Mathlib

/-!
Shallow embedding of the KJET applicant evaluation and ranking engine
(from `scripts/analysis/analyze_kjet_applications.py`, `county_evaluator.py`
and `scripts/evaluation/agentic_csv_generator.py`).

Modelling conventions: Python strings are Lean `String` (a list of
characters); Python float arithmetic is exact rational arithmetic over `ℚ`;
`round(x, 2)` is round-half-to-even at two decimal places over `ℚ`;
dictionaries with a fixed key set are structures; absent dictionary keys are
`Option`; fallible operations return `Option`.
-/

namespace KJET

/-- Boolean test that `pat` is an initial segment of `l` (helper for the
substring test used to model the Python `in` operator on strings). -/
def listStartsWith : List Char → List Char → Bool
  | [], _ => true
  | _ :: _, [] => false
  | p :: ps, c :: cs => decide (p = c) && listStartsWith ps cs

/-- Boolean test that `needle` occurs contiguously inside `l`. -/
def hasSubList (needle : List Char) : List Char → Bool
  | [] => listStartsWith needle []
  | c :: cs => listStartsWith needle (c :: cs) || hasSubList needle cs

/-- Model of the Python expression `needle in hay` on strings. -/
def strContains (hay needle : String) : Bool :=
  hasSubList needle.data hay.data

/-- Model of Python `s.lower()` (ASCII case folding, which covers every
keyword the source compares against). -/
def lowerStr (s : String) : String :=
  ⟨s.data.map Char.toLower⟩

/-- Model of `any(kw in content for kw in kws)`. -/
def hasAnyKw (content : String) (kws : List String) : Bool :=
  kws.any fun k => strContains content k

/-- Model of the Python test `s.strip() == ""`. -/
def isBlank (s : String) : Bool :=
  s.data.all Char.isWhitespace

/-- Truthiness of a Python string: nonempty. -/
def pyTruthy (s : String) : Bool :=
  !s.data.isEmpty

/-- Model of `d.get(key, default)` for an optional string field. -/
def pyGet (v : Option String) (default : String) : String :=
  v.getD default

/-- Decimal digit rendering used to model Python `str(n)` on naturals. -/
def digitChar : ℕ → Char
  | 0 => '0'
  | 1 => '1'
  | 2 => '2'
  | 3 => '3'
  | 4 => '4'
  | 5 => '5'
  | 6 => '6'
  | 7 => '7'
  | 8 => '8'
  | 9 => '9'
  | _ => '*'

/-- Model of Python `str(n)` for a natural number: its decimal numeral. -/
def natRepr (n : ℕ) : String :=
  if n = 0 then "0" else ⟨((Nat.digits 10 n).map digitChar).reverse⟩

theorem digitChar_inj_lt : ∀ d < 10, ∀ e < 10, digitChar d = digitChar e → d = e := by
  decide

theorem map_digitChar_inj :
    ∀ l₁ l₂ : List ℕ, (∀ d ∈ l₁, d < 10) → (∀ d ∈ l₂, d < 10) →
      l₁.map digitChar = l₂.map digitChar → l₁ = l₂ := by
  intro l₁
  induction l₁ with
  | nil => intro l₂ _ _ h; cases l₂ <;> simp_all
  | cons d l ih =>
    intro l₂ h₁ h₂ h
    cases l₂ with
    | nil => simp_all
    | cons e l' =>
      simp only [List.map_cons, List.cons.injEq] at h
      have hd : d = e :=
        digitChar_inj_lt d (h₁ d (by simp)) e (h₂ e (by simp)) h.1
      have ht : l = l' := by
        refine ih l' (fun x hx => h₁ x (by simp [hx])) (fun x hx => h₂ x (by simp [hx])) h.2
      simp [hd, ht]

theorem string_mk_inj {l₁ l₂ : List Char} (h : (⟨l₁⟩ : String) = ⟨l₂⟩) : l₁ = l₂ := by
  have := congrArg String.data h
  simpa using this

theorem natRepr_inj : Function.Injective natRepr := by
  intro n m h
  unfold natRepr at h
  by_cases hn : n = 0 <;> by_cases hm : m = 0
  · omega
  · exfalso
    simp only [hn, if_pos rfl, if_neg hm] at h
    have hdig := string_mk_inj h
    have : Nat.digits 10 m = [0] := by
      have hrev := congrArg List.reverse hdig
      simp only [List.reverse_reverse] at hrev
      refine map_digitChar_inj _ _ ?_ ?_ ?_
      · exact fun d hd => Nat.digits_lt_base (by norm_num) hd
      · intro d hd; simp only [List.mem_singleton] at hd; omega
      · simpa using hrev.symm
    have := congrArg (Nat.ofDigits 10) this
    rw [Nat.ofDigits_digits] at this
    simp [Nat.ofDigits] at this
    exact hm this
  · exfalso
    simp only [hm, if_pos rfl, if_neg hn] at h
    have hdig := string_mk_inj h
    have : Nat.digits 10 n = [0] := by
      have hrev := congrArg List.reverse hdig
      simp only [List.reverse_reverse] at hrev
      refine map_digitChar_inj _ _ ?_ ?_ ?_
      · exact fun d hd => Nat.digits_lt_base (by norm_num) hd
      · intro d hd; simp only [List.mem_singleton] at hd; omega
      · simpa using hrev
    have := congrArg (Nat.ofDigits 10) this
    rw [Nat.ofDigits_digits] at this
    simp [Nat.ofDigits] at this
    exact hn this
  · simp only [if_neg hn, if_neg hm] at h
    have hdig := string_mk_inj h
    have hrev := congrArg List.reverse hdig
    simp only [List.reverse_reverse] at hrev
    have : Nat.digits 10 n = Nat.digits 10 m := by
      refine map_digitChar_inj _ _ ?_ ?_ hrev
      · exact fun d hd => Nat.digits_lt_base (by norm_num) hd
      · exact fun d hd => Nat.digits_lt_base (by norm_num) hd
    exact Nat.digits.injective 10 this

/-- Value of a list of decimal digit characters. -/
def digitsVal (l : List Char) : ℕ :=
  l.foldl (fun acc c => 10 * acc + (c.toNat - 48)) 0

/-- Structural power of ten (kernel-reducible). -/
def pow10 : ℕ → ℕ
  | 0 => 1
  | n + 1 => 10 * pow10 n

/-- Helper for `parsePyFloat`: parse an unsigned decimal, with an optional
fractional part. -/
def parseUnsignedFloat (l : List Char) : Option ℚ :=
  let ip := l.takeWhile Char.isDigit
  let rest := l.dropWhile Char.isDigit
  match rest with
  | [] => if ip.isEmpty then none else some (digitsVal ip)
  | '.' :: fr =>
    let fp := fr.takeWhile Char.isDigit
    let rest2 := fr.dropWhile Char.isDigit
    if rest2.isEmpty then
      if ip.isEmpty && fp.isEmpty then none
      else some ((digitsVal ip : ℚ) + (digitsVal fp : ℚ) / (pow10 fp.length : ℚ))
    else none
  | _ => none

/-- Model of Python `float(s)` restricted to plain decimal notation with an
optional sign (no exponent, inf or nan forms, which the evaluated CSV fields
never use); `none` models the `ValueError` caught by the source. -/
def parsePyFloat (s : String) : Option ℚ :=
  let t := ((s.data.dropWhile Char.isWhitespace).reverse.dropWhile Char.isWhitespace).reverse
  match t with
  | '-' :: r => (parseUnsignedFloat r).map (fun q => -q)
  | '+' :: r => parseUnsignedFloat r
  | _ => parseUnsignedFloat t

/-- Round-half-to-even to an integer, the rounding Python `round` uses. -/
def roundHalfEven (q : ℚ) : ℤ :=
  if Int.fract q = 1 / 2 then (if 2 ∣ ⌊q⌋ then ⌊q⌋ else ⌊q⌋ + 1) else round q

/-- Model of Python `round(q, 2)`. -/
def round2 (q : ℚ) : ℚ :=
  (roundHalfEven (q * 100) : ℚ) / 100

theorem roundHalfEven_nonneg {q : ℚ} (h : 0 ≤ q) : 0 ≤ roundHalfEven q := by
  have hfl : (0 : ℤ) ≤ ⌊q⌋ := Int.floor_nonneg.mpr h
  unfold roundHalfEven
  split
  · split
    · exact hfl
    · omega
  · rw [round_eq]
    have : (0 : ℤ) ≤ ⌊q + 1 / 2⌋ := Int.floor_nonneg.mpr (by linarith)
    exact this

theorem roundHalfEven_le {q : ℚ} {B : ℤ} (h : q ≤ (B : ℚ)) : roundHalfEven q ≤ B := by
  unfold roundHalfEven
  split
  · rename_i hf
    have hq : (⌊q⌋ : ℚ) = q - 1 / 2 := by
      have := Int.floor_add_fract q
      rw [hf] at this
      linarith
    have hlt : (⌊q⌋ : ℚ) < (B : ℚ) := by rw [hq]; linarith
    have hlt' : ⌊q⌋ < B := by exact_mod_cast hlt
    split
    · omega
    · omega
  · rw [round_eq]
    have : ⌊q + 1 / 2⌋ < B + 1 := by
      rw [Int.floor_lt]
      push_cast
      linarith
    omega

theorem round2_nonneg {q : ℚ} (h : 0 ≤ q) : 0 ≤ round2 q := by
  unfold round2
  have h1 : (0 : ℤ) ≤ roundHalfEven (q * 100) := roundHalfEven_nonneg (by positivity)
  have h2 : (0 : ℚ) ≤ (roundHalfEven (q * 100) : ℚ) := by exact_mod_cast h1
  positivity

theorem round2_le_100 {q : ℚ} (h : q ≤ 100) : round2 q ≤ 100 := by
  unfold round2
  have h1 : roundHalfEven (q * 100) ≤ (10000 : ℤ) := by
    apply roundHalfEven_le
    push_cast
    linarith
  have h2 : (roundHalfEven (q * 100) : ℚ) ≤ 10000 := by exact_mod_cast h1
  linarith

/-- Per-criterion weight map of a cohort (the six keys of the Python
`scoring_weights` dictionaries). -/
structure Weights where
  registration_track_record : ℚ
  financial_position : ℚ
  market_demand_competitiveness : ℚ
  business_proposal_viability : ℚ
  value_chain_alignment : ℚ
  inclusivity_sustainability : ℚ
deriving DecidableEq

/-- Raw per-criterion scores of one application, as rationals (alternates
blended from cohort 1 carry fractional scores). -/
structure RawScores where
  registration_track_record : ℚ
  financial_position : ℚ
  market_demand_competitiveness : ℚ
  business_proposal_viability : ℚ
  value_chain_alignment : ℚ
  inclusivity_sustainability : ℚ
deriving DecidableEq

/-- Weights of `Cohort2Strategy.get_scoring_weights`. -/
def cohort2_weights : Weights :=
  { registration_track_record := 5 / 100
    financial_position := 20 / 100
    market_demand_competitiveness := 20 / 100
    business_proposal_viability := 25 / 100
    value_chain_alignment := 10 / 100
    inclusivity_sustainability := 20 / 100 }

/-- Weights of `Cohort1Strategy.get_scoring_weights` (identical values, other
dictionary order). -/
def cohort1_weights : Weights := cohort2_weights

/-- All six raw scores lie in the 0..5 band. -/
def RawScores.InRange (r : RawScores) : Prop :=
  (0 ≤ r.registration_track_record ∧ r.registration_track_record ≤ 5) ∧
  (0 ≤ r.financial_position ∧ r.financial_position ≤ 5) ∧
  (0 ≤ r.market_demand_competitiveness ∧ r.market_demand_competitiveness ≤ 5) ∧
  (0 ≤ r.business_proposal_viability ∧ r.business_proposal_viability ≤ 5) ∧
  (0 ≤ r.value_chain_alignment ∧ r.value_chain_alignment ≤ 5) ∧
  (0 ≤ r.inclusivity_sustainability ∧ r.inclusivity_sustainability ≤ 5)

/-- Nonnegative weights summing to one. -/
def Weights.Valid (w : Weights) : Prop :=
  0 ≤ w.registration_track_record ∧ 0 ≤ w.financial_position ∧
  0 ≤ w.market_demand_competitiveness ∧ 0 ≤ w.business_proposal_viability ∧
  0 ≤ w.value_chain_alignment ∧ 0 ≤ w.inclusivity_sustainability ∧
  w.registration_track_record + w.financial_position +
    w.market_demand_competitiveness + w.business_proposal_viability +
    w.value_chain_alignment + w.inclusivity_sustainability = 1

/-- The weighted sum `sum(score / 5.0 * 100 * weight)` accumulated by
`KJETAnalyzer.score_application` over the six criteria. -/
def weightedTotal (w : Weights) (r : RawScores) : ℚ :=
  r.registration_track_record / 5 * 100 * w.registration_track_record +
  r.financial_position / 5 * 100 * w.financial_position +
  r.market_demand_competitiveness / 5 * 100 * w.market_demand_competitiveness +
  r.business_proposal_viability / 5 * 100 * w.business_proposal_viability +
  r.value_chain_alignment / 5 * 100 * w.value_chain_alignment +
  r.inclusivity_sustainability / 5 * 100 * w.inclusivity_sustainability

/-- Composite score of `KJETAnalyzer.score_application`:
`round(weighted_total, 2)`. -/
def score_application_composite (w : Weights) (r : RawScores) : ℚ :=
  round2 (weightedTotal w r)

/-- Composite score of `KJETCountyEvaluator._score_application`, which first
normalises each raw score to `score * 20` and then applies the weight. -/
def county_composite (w : Weights) (r : RawScores) : ℚ :=
  round2
    (r.registration_track_record * 20 * w.registration_track_record +
     r.financial_position * 20 * w.financial_position +
     r.market_demand_competitiveness * 20 * w.market_demand_competitiveness +
     r.business_proposal_viability * 20 * w.business_proposal_viability +
     r.value_chain_alignment * 20 * w.value_chain_alignment +
     r.inclusivity_sustainability * 20 * w.inclusivity_sustainability)

theorem weighted_term_nonneg {x wt : ℚ} (hx : 0 ≤ x) (hw : 0 ≤ wt) :
    0 ≤ x / 5 * 100 * wt := by positivity

theorem weighted_term_le {x wt : ℚ} (hx : x ≤ 5) (hw : 0 ≤ wt) :
    x / 5 * 100 * wt ≤ 100 * wt := by
  have h : x / 5 * 100 ≤ 100 := by linarith
  exact mul_le_mul_of_nonneg_right h hw

theorem weightedTotal_bounds {w : Weights} {r : RawScores}
    (hr : r.InRange) (hw : w.Valid) :
    0 ≤ weightedTotal w r ∧ weightedTotal w r ≤ 100 := by
  obtain ⟨⟨h1a, h1b⟩, ⟨h2a, h2b⟩, ⟨h3a, h3b⟩, ⟨h4a, h4b⟩, ⟨h5a, h5b⟩, ⟨h6a, h6b⟩⟩ := hr
  obtain ⟨hw1, hw2, hw3, hw4, hw5, hw6, hsum⟩ := hw
  have t1a := weighted_term_nonneg h1a hw1
  have t2a := weighted_term_nonneg h2a hw2
  have t3a := weighted_term_nonneg h3a hw3
  have t4a := weighted_term_nonneg h4a hw4
  have t5a := weighted_term_nonneg h5a hw5
  have t6a := weighted_term_nonneg h6a hw6
  have t1b := weighted_term_le h1b hw1
  have t2b := weighted_term_le h2b hw2
  have t3b := weighted_term_le h3b hw3
  have t4b := weighted_term_le h4b hw4
  have t5b := weighted_term_le h5b hw5
  have t6b := weighted_term_le h6b hw6
  unfold weightedTotal
  constructor
  · linarith
  · linarith

/-- One element of a county result pool in `KJETAnalyzer.run_analysis`: the
six raw criterion scores plus the composite, as stored in the `scores`
dictionary of both current-round entries and cohort-1 alternates. -/
structure PoolEntry where
  application_id : String
  composite_score : ℚ
  s_registration_track_record : ℚ
  s_financial_position : ℚ
  s_market_demand_competitiveness : ℚ
  s_business_proposal_viability : ℚ
  s_value_chain_alignment : ℚ
  s_inclusivity_sustainability : ℚ
  is_c1_alternate : Bool
deriving DecidableEq

/-- Tie-breaker key order of `Cohort2Strategy.get_tie_breaker_order` applied
by the `sort_key` closure in `run_analysis`: the tuple of negated values, so
that an ascending sort ranks each key descending. -/
def sort_key (x : PoolEntry) : List ℚ :=
  [-x.composite_score,
   -x.s_business_proposal_viability,
   -x.s_market_demand_competitiveness,
   -x.s_financial_position,
   -x.s_inclusivity_sustainability,
   -x.s_registration_track_record]

/-- Lexicographic comparison of Python tuples (restricted to same-length
numeric tuples, the only shape `sort_key` produces). -/
def keyLE : List ℚ → List ℚ → Bool
  | [], _ => true
  | _ :: _, [] => false
  | a :: as, b :: bs => if a < b then true else if b < a then false else keyLE as bs

theorem keyLE_refl : ∀ x : List ℚ, keyLE x x = true := by
  intro x
  induction x with
  | nil => rfl
  | cons a as ih => simp [keyLE, ih]

theorem keyLE_total : ∀ x y : List ℚ, keyLE x y = true ∨ keyLE y x = true := by
  intro x
  induction x with
  | nil => intro y; left; rfl
  | cons a as ih =>
    intro y
    cases y with
    | nil => right; rfl
    | cons b bs =>
      rcases lt_trichotomy a b with h | h | h
      · left; simp [keyLE, h]
      · subst h
        rcases ih bs with h' | h'
        · left; simp [keyLE, h']
        · right; simp [keyLE, h']
      · right; simp [keyLE, h]

theorem keyLE_trans :
    ∀ x y z : List ℚ, keyLE x y = true → keyLE y z = true → keyLE x z = true := by
  intro x
  induction x with
  | nil => intro y z _ _; rfl
  | cons a as ih =>
    intro y z hxy hyz
    cases y with
    | nil => simp [keyLE] at hxy
    | cons b bs =>
      cases z with
      | nil => simp [keyLE] at hyz
      | cons c cs =>
        simp only [keyLE] at hxy hyz ⊢
        rcases lt_trichotomy a b with hab | hab | hab
        · rcases lt_trichotomy b c with hbc | hbc | hbc
          · simp [lt_trans hab hbc]
          · subst hbc; simp [hab]
          · exfalso
            simp only [if_neg (not_lt.mpr (le_of_lt hbc)), if_pos hbc] at hyz
            exact Bool.noConfusion hyz
        · subst hab
          rcases lt_trichotomy a c with hac | hac | hac
          · simp [hac]
          · subst hac
            simp only [if_neg (lt_irrefl a)] at hxy hyz ⊢
            exact ih bs cs hxy hyz
          · exfalso
            simp only [if_neg (not_lt.mpr (le_of_lt hac)), if_pos hac] at hyz
            exact Bool.noConfusion hyz
        · exfalso
          simp only [if_neg (not_lt.mpr (le_of_lt hab)), if_pos hab] at hxy
          exact Bool.noConfusion hxy

/-- The comparison relation the Python list sort applies: ascending in
`sort_key`. -/
def keyRel (a b : PoolEntry) : Prop :=
  keyLE (sort_key a) (sort_key b) = true

instance : DecidableRel keyRel := fun a b =>
  inferInstanceAs (Decidable (_ = true))

instance : IsTotal PoolEntry keyRel :=
  ⟨fun a b => keyLE_total (sort_key a) (sort_key b)⟩

instance : IsTrans PoolEntry keyRel :=
  ⟨fun a b c => keyLE_trans (sort_key a) (sort_key b) (sort_key c)⟩

/-- Model of `county_results.sort(key=sort_key)`: Python sorts are stable,
and a stable ascending sort is insertion sort with a non-strict total
comparison. -/
def pySortPool (l : List PoolEntry) : List PoolEntry :=
  List.insertionSort keyRel l

theorem keyLE_false_ne {x y : List ℚ} (h : keyLE x y = false) : y ≠ x := by
  intro he
  subst he
  rw [keyLE_refl] at h
  exact Bool.noConfusion h


theorem filter_orderedInsert (k : List ℚ) (a : PoolEntry) :
    ∀ l : List PoolEntry,
      (List.orderedInsert keyRel a l).filter (fun e => decide (sort_key e = k)) =
        if sort_key a = k then
          a :: l.filter (fun e => decide (sort_key e = k))
        else l.filter (fun e => decide (sort_key e = k)) := by
  intro l
  induction l with
  | nil =>
    simp only [List.orderedInsert]
    by_cases hak : sort_key a = k <;> simp [hak]
  | cons b l ih =>
    by_cases hab : keyRel a b
    · rw [List.orderedInsert_of_le keyRel _ hab]
      simp only [List.filter_cons]
      by_cases hak : sort_key a = k <;> simp [hak]
    · have hne : sort_key b ≠ sort_key a := by
        have hfa : keyLE (sort_key a) (sort_key b) = false := by
          unfold keyRel at hab
          exact Bool.eq_false_iff.mpr hab
        exact keyLE_false_ne hfa
      simp only [List.orderedInsert, if_neg hab]
      simp only [List.filter_cons]
      rw [ih]
      by_cases hak : sort_key a = k
      · have hbk : ¬ sort_key b = k := fun hc => hne (hc.trans hak.symm)
        simp [hak, hbk]
      · simp [hak]

theorem filter_pySortPool (k : List ℚ) :
    ∀ l : List PoolEntry,
      (pySortPool l).filter (fun e => decide (sort_key e = k)) =
        l.filter (fun e => decide (sort_key e = k)) := by
  intro l
  induction l with
  | nil => rfl
  | cons a l ih =>
    show (List.orderedInsert keyRel a (pySortPool l)).filter _ = _
    rw [filter_orderedInsert, ih, List.filter_cons]
    by_cases hak : sort_key a = k <;> simp [hak]

/-- Tier rule of `Cohort2Strategy.get_tier_logic` applied to the scores of a
pool entry. -/
def get_tier_logic_c2 (e : PoolEntry) : String :=
  if 4 ≤ e.s_financial_position ∧ 4 ≤ e.s_market_demand_competitiveness then
    "Tier 1: Ready-to-Scale"
  else "Tier 2: Emerging"

/-- Output row of the rank/tier assignment loop of
`KJETAnalyzer.run_analysis`. -/
structure RankedEntry where
  entry : PoolEntry
  rank : ℕ
  tier : Option String
deriving DecidableEq

/-- The enumerate loop of `run_analysis`: position `i` receives rank `i + 1`
and, while `i < top_n`, the tier computed by the cohort tier rule; later
positions receive no tier. -/
def assignRanksGo (tierOf : PoolEntry → String) (topN : ℕ) : ℕ → List PoolEntry → List RankedEntry
  | _, [] => []
  | i, e :: es =>
    { entry := e, rank := i + 1, tier := if i < topN then some (tierOf e) else none } ::
      assignRanksGo tierOf topN (i + 1) es

/-- Rank and tier assignment over a sorted pool, starting at position 0. -/
def assignRanks (tierOf : PoolEntry → String) (topN : ℕ) (l : List PoolEntry) : List RankedEntry :=
  assignRanksGo tierOf topN 0 l

theorem assignRanksGo_length (tierOf : PoolEntry → String) (topN : ℕ) :
    ∀ (l : List PoolEntry) (i : ℕ), (assignRanksGo tierOf topN i l).length = l.length := by
  intro l
  induction l with
  | nil => intro i; rfl
  | cons e es ih => intro i; simp [assignRanksGo, ih]

theorem assignRanksGo_map_rank (tierOf : PoolEntry → String) (topN : ℕ) :
    ∀ (l : List PoolEntry) (i : ℕ),
      (assignRanksGo tierOf topN i l).map RankedEntry.rank = List.range' (i + 1) l.length := by
  intro l
  induction l with
  | nil => intro i; rfl
  | cons e es ih =>
    intro i
    simp only [assignRanksGo, List.map_cons, List.length_cons, List.range'_succ]
    rw [ih (i + 1)]

theorem assignRanksGo_getD_rank (tierOf : PoolEntry → String) (topN : ℕ) (d : RankedEntry) :
    ∀ (l : List PoolEntry) (i j : ℕ), j < l.length →
      ((assignRanksGo tierOf topN i l).getD j d).rank = i + j + 1 := by
  intro l
  induction l with
  | nil => intro i j h; simp at h
  | cons e es ih =>
    intro i j h
    cases j with
    | zero => simp [assignRanksGo, List.getD]
    | succ j' =>
      have h' : j' < es.length := by simpa using h
      have := ih (i + 1) j' h'
      simp only [assignRanksGo, List.getD_cons_succ]
      omega

theorem assignRanksGo_getD_tier (tierOf : PoolEntry → String) (topN : ℕ) (d : RankedEntry) :
    ∀ (l : List PoolEntry) (i j : ℕ), j < l.length →
      (((assignRanksGo tierOf topN i l).getD j d).tier ≠ none ↔ i + j < topN) := by
  intro l
  induction l with
  | nil => intro i j h; simp at h
  | cons e es ih =>
    intro i j h
    cases j with
    | zero =>
      simp only [assignRanksGo, List.getD_cons_zero, Nat.add_zero]
      split <;> simp_all
    | succ j' =>
      have h' : j' < es.length := by simpa using h
      have := ih (i + 1) j' h'
      simp only [assignRanksGo, List.getD_cons_succ]
      rw [this]
      omega

/-- One row of the cohort-1 human results file `kjet-human-final.json`, with
the fields `load_cohort1_alternates` reads.  Numeric score fields default to
0 when absent in the JSON, so the defaulted value is stored directly. -/
structure C1Record where
  application_id_field : String
  ranking_from_composite : Option ℤ
  county_field : String
  total : ℚ
  a31 : ℚ
  a32 : ℚ
  a33 : ℚ
  a34 : ℚ
  a35 : ℚ
  a36 : ℚ
deriving DecidableEq

/-- The synthetic pool entry `load_cohort1_alternates` builds for an admitted
prior-round record: every per-criterion score is divided by 20 (back from the
0..100 point scale to the 0..5 scale) and the entry is tagged as an
alternate. -/
def alternate_entry (r : C1Record) : PoolEntry :=
  { application_id := "C1_" ++ r.application_id_field
    composite_score := r.total
    s_registration_track_record := r.a31 / 20
    s_financial_position := r.a32 / 20
    s_market_demand_competitiveness := r.a33 / 20
    s_business_proposal_viability := r.a34 / 20
    s_value_chain_alignment := r.a35 / 20
    s_inclusivity_sustainability := r.a36 / 20
    is_c1_alternate := true }

/-- The admission test `rank in [3, 4]` of `load_cohort1_alternates`. -/
def rankIn34 (r : C1Record) : Bool :=
  decide (r.ranking_from_composite = some 3 ∨ r.ranking_from_composite = some 4)

/-- Model of `load_cohort1_alternates` restricted to one county: the records
of that county whose recorded rank is 3 or 4, mapped to alternate entries
(`county_field` holds the title-cased county name the source groups by). -/
def load_cohort1_alternates (county : String) (recs : List C1Record) : List PoolEntry :=
  (recs.filter (fun r => rankIn34 r && decide (r.county_field = county))).map alternate_entry

/-- Per-county tail of `run_analysis`: the eligible current-round entries are
extended with the county alternates, the combined pool is sorted with the
cohort tie-break key, and ranks and tiers are assigned. -/
def run_analysis_county (topN : ℕ) (current : List PoolEntry) (county : String)
    (recs : List C1Record) : List RankedEntry :=
  assignRanks get_tier_logic_c2 topN (pySortPool (current ++ load_cohort1_alternates county recs))

/-- The CSV metadata row merged into an application (`csv_metadata`), with
the fields the cohort-2 strategy reads; `none` models an absent key. -/
structure CsvMeta where
  registration_status : Option String
  registration_number : Option String
  value_chain : Option String
  value_chain_other : Option String
  turnover_2024 : Option String
  turnover_2023 : Option String
  exports_percent : Option String
  b2b_description : Option String
  business_objectives : Option String
  woman_owned_enterprise : Option String
deriving DecidableEq

/-- A metadata row with every field absent: what `application.get("csv_metadata", \x7b\x7d)` yields when no CSV row was merged. -/
def emptyCsvMeta : CsvMeta :=
  { registration_status := none, registration_number := none, value_chain := none
    value_chain_other := none, turnover_2024 := none, turnover_2023 := none
    exports_percent := none, b2b_description := none, business_objectives := none
    woman_owned_enterprise := none }

/-- An application as the cohort-2 strategy sees it: optional CSV metadata
and the size of the `financial_documents` mapping. -/
structure AppC2 where
  csv_metadata : Option CsvMeta
  financial_documents_count : ℕ
deriving DecidableEq

/-- Model of `application.get("csv_metadata", ...)` with the empty default. -/
def getCsvMeta (a : AppC2) : CsvMeta :=
  a.csv_metadata.getD emptyCsvMeta

/-- Python regex word character (ASCII): letter, digit or underscore. -/
def isWordChar (c : Char) : Bool :=
  c.isAlphanum || decide (c = '_')

/-- Remove the literal `pat` from the front of `l`, if it is there. -/
def stripLit : List Char → List Char → Option (List Char)
  | [], l => some l
  | _ :: _, [] => none
  | p :: ps, c :: cs => if p = c then stripLit ps cs else none

/-- Whether one of the three alternatives of the registration-number regex
matches at the head of `l`: a literal tag followed by at least one word
character. -/
def regNumPatternAt (l : List Char) : Bool :=
  (match stripLit "BN-".data l with | some (c :: _) => isWordChar c | _ => false) ||
  (match stripLit "PVT-".data l with | some (c :: _) => isWordChar c | _ => false) ||
  (match stripLit "CPR/".data l with | some (c :: _) => isWordChar c | _ => false)

/-- Whether the registration-number regex matches anywhere in the content. -/
def hasRegNumPattern : List Char → Bool
  | [] => false
  | c :: cs => regNumPatternAt (c :: cs) || hasRegNumPattern cs

/-- The five gate results of the cohort-2 eligibility check, with the key
names of the returned dictionary. -/
structure EligCriteria where
  e1_registration_legality : Bool
  e2_county_mapping : Bool
  e3_priority_value_chain : Bool
  e4_financial_evidence : Bool
  e5_consent_contactability : Bool
deriving DecidableEq

namespace Cohort2Strategy

/-- The sector keyword list of `Cohort2Strategy.check_eligibility`. -/
def priority_keywords : List String :=
  ["dairy", "tea", "rice", "oil", "textile", "construction", "blue economy",
   "minerals", "forestry", "leather", "processing", "manufacturing", "value chain"]

/-- Model of `Cohort2Strategy.check_eligibility`. -/
def check_eligibility (application : AppC2) (content : String) : EligCriteria :=
  let csv_meta := getCsvMeta application
  let reg_status := lowerStr (pyGet csv_meta.registration_status "")
  let reg_number0 := pyGet csv_meta.registration_number ""
  let has_reg_number := pyTruthy reg_number0 || hasRegNumPattern content.data
  let e1 := (decide (reg_status ≠ "unregistered") && decide (reg_status ≠ "")) || has_reg_number
  let e2 := true
  let vc_csv := lowerStr (pyGet csv_meta.value_chain "")
  let vc_other := lowerStr (pyGet csv_meta.value_chain_other "")
  let e3a := priority_keywords.any (fun kw => strContains vc_csv kw) ||
    priority_keywords.any (fun kw => strContains vc_other kw)
  let e3 := if e3a then e3a else hasAnyKw (lowerStr content) priority_keywords
  let e4a := decide (0 < application.financial_documents_count) ||
    hasAnyKw (lowerStr content)
      ["bank statement", "mpesa", "financial statement", "cashflow", "balance sheet"]
  let e4 := if e4a then e4a
    else pyTruthy (pyGet csv_meta.turnover_2024 "") || pyTruthy (pyGet csv_meta.turnover_2023 "")
  let e5 := true
  { e1_registration_legality := e1
    e2_county_mapping := e2
    e3_priority_value_chain := e3
    e4_financial_evidence := e4
    e5_consent_contactability := e5 }

/-- The six raw integer scores `Cohort2Strategy.calculate_scores` returns. -/
structure CScores where
  registration_track_record : ℕ
  financial_position : ℕ
  market_demand_competitiveness : ℕ
  business_proposal_viability : ℕ
  value_chain_alignment : ℕ
  inclusivity_sustainability : ℕ
deriving DecidableEq

/-- Model of `Cohort2Strategy.calculate_scores`. -/
def calculate_scores (application : AppC2) (content : String) : CScores :=
  let csv_meta := getCsvMeta application
  let reg_status := lowerStr (pyGet csv_meta.registration_status "")
  let reg :=
    if reg_status = "private company" ∨ reg_status = "limited" ∨ reg_status = "cooperative"
    then 5 else if reg_status ≠ "" then 4 else 3
  let turnover :=
    if pyTruthy (pyGet csv_meta.turnover_2024 "") then pyGet csv_meta.turnover_2024 ""
    else pyGet csv_meta.turnover_2023 ""
  let fin :=
    if turnover ≠ "" then
      match parsePyFloat ⟨turnover.data.filter (fun c => decide (c ≠ ','))⟩ with
      | some t => if 10000000 < t then 5 else if 5000000 < t then 4 else 3
      | none => 3
    else if 0 < application.financial_documents_count then 3 else 0
  let exports := pyGet csv_meta.exports_percent "0"
  let mkt :=
    if ¬ isBlank exports ∧ exports ≠ "0" then 5
    else if pyTruthy (pyGet csv_meta.b2b_description "") then 4 else 3
  let obj := pyGet csv_meta.business_objectives ""
  let prop := if 200 < obj.data.length then 5 else if 50 < obj.data.length then 4 else 3
  let vc := 4
  let woman := lowerStr (pyGet csv_meta.woman_owned_enterprise "")
  let inc := if woman = "yes" then 5 else 3
  { registration_track_record := reg
    financial_position := fin
    market_demand_competitiveness := mkt
    business_proposal_viability := prop
    value_chain_alignment := vc
    inclusivity_sustainability := inc }

end Cohort2Strategy

/-- Cast the integer cohort-2 scores into the rational score record used by
the composite calculator. -/
def Cohort2Strategy.CScores.toRaw (s : Cohort2Strategy.CScores) : RawScores :=
  { registration_track_record := s.registration_track_record
    financial_position := s.financial_position
    market_demand_competitiveness := s.market_demand_competitiveness
    business_proposal_viability := s.business_proposal_viability
    value_chain_alignment := s.value_chain_alignment
    inclusivity_sustainability := s.inclusivity_sustainability }

/-- Result shape of `KJETAnalyzer.analyze_eligibility`. -/
structure EligibilityResult where
  eligible : Bool
  criteria_results : EligCriteria
deriving DecidableEq

namespace KJETAnalyzer

/-- Model of `KJETAnalyzer.analyze_eligibility` under the cohort-2 strategy:
`eligible = all(criteria.values())`. -/
def analyze_eligibility (application : AppC2) (content : String) : EligibilityResult :=
  let criteria := Cohort2Strategy.check_eligibility application content
  { eligible := criteria.e1_registration_legality && criteria.e2_county_mapping &&
      criteria.e3_priority_value_chain && criteria.e4_financial_evidence &&
      criteria.e5_consent_contactability
    criteria_results := criteria }

/-- Model of `KJETAnalyzer.score_application` under the cohort-2 strategy:
the raw scores plus the rounded weighted composite. -/
def score_application (application : AppC2) (content : String) : Cohort2Strategy.CScores × ℚ :=
  let scores := Cohort2Strategy.calculate_scores application content
  (scores, score_application_composite cohort2_weights scores.toRaw)

/-- The eligibility-then-scoring step of the `run_analysis` loop for one
application: a score breakdown is produced exactly for eligible
applications. -/
def analyze_one (application : AppC2) (content : String) :
    Option (Cohort2Strategy.CScores × ℚ) :=
  if (analyze_eligibility application content).eligible then
    some (score_application application content)
  else none

end KJETAnalyzer

/-- The five gate results computed at the top of
`KJETCountyEvaluator.evaluate_single_application` (by the five
`_evaluate_*` collaborator functions). -/
structure GateResults where
  e1 : Bool
  e2 : Bool
  e3 : Bool
  e4 : Bool
  e5 : Bool
deriving DecidableEq

/-- Evaluation record built by `evaluate_single_application`, generic in the
payload produced by `_score_application`. -/
structure CountySingleEval (α : Type) where
  eligible : Bool
  criteria_results : GateResults
  failure_reasons : List String
  scoring : Option α
deriving DecidableEq

/-- Model of the aggregation tail of
`KJETCountyEvaluator.evaluate_single_application`: the overall flag is the
conjunction of the five gate results, one failure reason is recorded per
failed gate, and `_score_application` runs only for eligible
applications. -/
def evaluate_single_application {α : Type} (g : GateResults) (scoring_result : α) :
    CountySingleEval α :=
  let eligible := g.e1 && g.e2 && g.e3 && g.e4 && g.e5
  { eligible := eligible
    criteria_results := g
    failure_reasons :=
      (if !g.e1 then ["E1: No valid registration/legal status found"] else []) ++
      (if !g.e2 then ["E2: County mapping unclear or missing"] else []) ++
      (if !g.e3 then ["E3: Not operating in priority value chain"] else []) ++
      (if !g.e4 then ["E4: Insufficient financial evidence"] else []) ++
      (if !g.e5 then ["E5: Missing contact information or consent"] else [])
    scoring := if eligible then some scoring_result else none }

/-- An application as the county evaluator sees it for value-chain checks:
the `value_chains_mentioned` structured lists and the size of the
`financial_documents` mapping. -/
structure CountyApp where
  value_chains_mentioned : List String
  financial_documents_count : ℕ
deriving DecidableEq

namespace KJETCountyEvaluator

/-- Priority value-chain keywords of `_evaluate_value_chain`. -/
def priority_keywords : List String :=
  ["dairy", "tea", "rice", "oil", "textile", "construction", "blue economy",
   "minerals", "forestry", "leather", "edible oil", "processing", "manufacturing"]

/-- Model of `KJETCountyEvaluator._evaluate_value_chain`.  The `content`
argument is the already lower-cased text `_extract_application_content`
produces. -/
def evaluate_value_chain (application : CountyApp) (content : String) : Bool :=
  application.value_chains_mentioned.any
    (fun chain => priority_keywords.any (fun kw => strContains (lowerStr chain) kw)) ||
  hasAnyKw content priority_keywords

/-- Model of `_score_registration_track_record`.  The regex-extracted years
of operation are taken as a parameter (`years_operational`), universally
quantified in the theorems below, so every possible extraction result is
covered. -/
def score_registration_track_record (years_operational : ℕ) (content : String) : ℕ :=
  let governance_indicators := ["board", "directors", "elected officials", "minutes",
    "meetings", "governance", "audited", "handover", "constitution", "bylaws"]
  let has_governance := hasAnyKw content governance_indicators
  let leadership_indicators := ["chairman", "chairperson", "secretary", "treasurer",
    "ceo", "managing director", "executive", "leadership"]
  let has_leadership := hasAnyKw content leadership_indicators
  let score : ℕ :=
    if 3 ≤ years_operational ∧ has_governance then 5
    else if 1 ≤ years_operational ∧ (has_leadership ∨ has_governance) then 4
    else if 1 ≤ years_operational ∨ strContains content "registered" then 3
    else if strContains content "registration" ∧
        (strContains content "dormant" ∨ strContains content "irregular") then 2
    else if strContains content "registration" ∨ strContains content "company" ∨
        strContains content "cooperative" then 1
    else 0
  min score 5

/-- Model of `_score_financial_position`.  The regex-extracted maximal
turnover amount is taken as a parameter (`turnover_amount`), universally
quantified in the theorems below. -/
def score_financial_position (turnover_amount : ℚ) (application : CountyApp)
    (content : String) : ℕ :=
  let trend_indicators := ["positive", "growth", "increase", "improving", "rising", "up"]
  let has_positive_trend := hasAnyKw content trend_indicators
  let statement_types := ["balance sheet", "income statement", "cash flow", "bank statement",
    "mpesa statement", "financial statement", "audited accounts"]
  let has_statements := hasAnyKw content statement_types
  let has_financial_docs := 0 < application.financial_documents_count
  let score : ℕ :=
    if 10000000 ≤ turnover_amount ∧ has_positive_trend ∧ (has_statements ∨ has_financial_docs)
    then 5
    else if 5000000 ≤ turnover_amount ∧ (has_statements ∨ has_financial_docs) then 4
    else if 1000000 ≤ turnover_amount ∧ (has_statements ∨ has_financial_docs) then 3
    else if 1000000 ≤ turnover_amount ∨ has_statements ∨ has_financial_docs then 2
    else if strContains content "financial" ∨ strContains content "bank" ∨
        strContains content "transaction" then 1
    else 0
  min score 5

/-- Model of `_score_market_demand`. -/
def score_market_demand (content : String) : ℕ :=
  let contract_indicators := ["contract", "purchase order", "offtake agreement",
    "buyer agreement", "supply agreement", "distribution agreement"]
  let has_contracts := hasAnyKw content contract_indicators
  let channels := ["wholesale", "retail", "digital", "marketplace", "online", "export"]
  let channel_count := (channels.filter (fun c => strContains content c)).length
  let has_multi_channel := 2 ≤ channel_count
  let customer_indicators := ["repeat customers", "regular buyers", "loyal customers",
    "returning clients", "established relationships", "long-term clients"]
  let has_repeat_customers := hasAnyKw content customer_indicators
  let quality_indicators := ["quality assurance", "certification", "standards",
    "premium pricing", "competitive pricing", "brand", "differentiation"]
  let has_quality_positioning := hasAnyKw content quality_indicators
  let order_indicators := ["monthly orders", "consistent orders", "regular orders",
    "steady demand"]
  let has_consistent_orders := hasAnyKw content order_indicators
  let score : ℕ :=
    if has_contracts ∧ has_multi_channel ∧ has_repeat_customers ∧ has_quality_positioning
    then 5
    else if has_consistent_orders ∧ 1 ≤ channel_count ∧ has_quality_positioning then 4
    else if (strContains content "sales" ∨ strContains content "customers") ∧
        1 ≤ channel_count then 3
    else if strContains content "sales" ∨ strContains content "customers" then 2
    else if strContains content "market" ∨ strContains content "demand" then 1
    else 0
  min score 5

/-- Model of `_score_business_proposal`. -/
def score_business_proposal (content : String) : ℕ :=
  let proposal_signals : ℕ :=
    (if strContains content "objectives" then 1 else 0) +
    (if strContains content "targets" then 1 else 0) +
    (if strContains content "plan" then 1 else 0) +
    (if strContains content "budget" then 1 else 0) +
    (if strContains content "strategy" then 1 else 0) +
    (if strContains content "growth" then 1 else 0) +
    (if strContains content "feasibility" then 1 else 0)
  let score : ℕ :=
    if 6 ≤ proposal_signals then 5
    else if 4 ≤ proposal_signals then 4
    else if 3 ≤ proposal_signals then 3
    else if 2 ≤ proposal_signals then 2
    else if 1 ≤ proposal_signals then 1
    else 0
  min score 5

/-- Model of `_score_value_chain_alignment`. -/
def score_value_chain_alignment (application : CountyApp) (content : String) : ℕ :=
  let vc_signals : ℕ :=
    (if strContains content "processing" then 1 else 0) +
    (if strContains content "manufacturing" then 1 else 0) +
    (if strContains content "aggregation" then 1 else 0) +
    (if strContains content "linkages" then 1 else 0) +
    (if strContains content "upstream" ∨ strContains content "downstream" then 1 else 0)
  let is_priority_vc := evaluate_value_chain application content
  let score : ℕ :=
    if is_priority_vc then
      if 4 ≤ vc_signals then 5
      else if 3 ≤ vc_signals then 4
      else if 2 ≤ vc_signals then 3
      else 2
    else 1
  min score 5

/-- Model of `_score_inclusivity_sustainability`. -/
def score_inclusivity_sustainability (content : String) : ℕ :=
  let inclusivity_signals : ℕ :=
    (if strContains content "women" then 1 else 0) +
    (if strContains content "youth" then 1 else 0) +
    (if strContains content "female" then 1 else 0) +
    (if strContains content "young" then 1 else 0) +
    (if strContains content "diversity" then 1 else 0) +
    (if strContains content "disabled" ∨ strContains content "pwd" then 1 else 0)
  let sustainability_signals : ℕ :=
    (if strContains content "environment" then 1 else 0) +
    (if strContains content "sustainable" then 1 else 0) +
    (if strContains content "green" then 1 else 0) +
    (if strContains content "recycling" then 1 else 0) +
    (if strContains content "efficiency" then 1 else 0)
  let total_signals := inclusivity_signals + sustainability_signals
  let score : ℕ :=
    if 5 ≤ total_signals then 5
    else if 3 ≤ total_signals then 4
    else if 2 ≤ total_signals then 3
    else if 1 ≤ total_signals then 2
    else 0
  min score 5

end KJETCountyEvaluator

namespace AgenticCsv

/-- Model of the S1 registration score of `evaluate_county` in
`agentic_csv_generator.py`; `age` is `2025 - est_year` or 0 when the year
field does not parse. -/
def s1_score (age : ℤ) : ℕ :=
  if 10 ≤ age then 5 else if 5 ≤ age then 4 else if 2 ≤ age then 3 else 1

/-- Model of the S2 financial score of `evaluate_county`: revenue bands plus
an accounting-system bonus clamped at 5. -/
def s2_score (rev_2024_val : ℚ) (acc_sys : String) : ℕ :=
  let base : ℕ :=
    if 1000000 < rev_2024_val then 5
    else if 500000 < rev_2024_val then 4
    else if 100000 < rev_2024_val then 3
    else if 0 < rev_2024_val then 2
    else 1
  if pyTruthy acc_sys ∧ acc_sys ≠ "None" ∧ acc_sys ≠ "n" ∧ acc_sys ≠ "N/A" then
    min 5 (base + 1)
  else base

/-- Model of the S3 market score of `evaluate_county`. -/
def s3_score (b2b_val : ℚ) : ℕ :=
  if 50 < b2b_val then 5 else if 20 < b2b_val then 4 else if 0 < b2b_val then 3 else 2

/-- Model of the S4 proposal score of `evaluate_county`. -/
def s4_score (strategy : String) : ℕ :=
  if pyTruthy strategy ∧ 50 < strategy.data.length then 4
  else if pyTruthy strategy ∧ 10 < strategy.data.length then 3
  else if pyTruthy strategy ∧ lowerStr strategy ≠ "n" then 2
  else 1

/-- Model of the S5 value-chain score of `evaluate_county` (constant). -/
def s5_score : ℕ := 4

/-- Model of the S6 inclusivity score of `evaluate_county`; the argument is
the already lower-cased woman-owned field. -/
def s6_score (woman_owned : String) : ℕ :=
  if woman_owned = "yes" then 5 else 1

end AgenticCsv

/-- Raw application record as `evaluate_county_applications` receives it:
only the `application_id` key matters for the result bookkeeping (`none`
models an absent key). -/
structure AppRec where
  application_id : Option String
deriving DecidableEq

/-- The slice of an `evaluate_single_application` result relevant to the
per-county results map. -/
structure SingleResult where
  application_id : String
  eligible : Bool
  error : Option String
  failure_reasons : List String
deriving DecidableEq, Inhabited

/-- Outcome of one `evaluate_with_timeout` call: a produced evaluation, a
`TimeoutError`, or another exception with its message.  Exceptions are
modelled as explicit outcome values, as the Lean embedding of fallible
code. -/
inductive Outcome where
  | ok (ev : SingleResult)
  | timeout
  | failure (msg : String)
deriving DecidableEq, Inhabited

/-- Model of `a or b` for a possibly-absent string `a`: `b` when `a` is
`None` or empty. -/
def pyOrStr (a : Option String) (b : String) : String :=
  if pyTruthy (a.getD "") then a.getD "" else b

/-- The candidate key the dedup loop probes: `base` + underscore +
decimal suffix. -/
def candKey (base : String) (n : ℕ) : String :=
  base ++ "_" ++ natRepr n

theorem string_data_inj {s t : String} (h : s.data = t.data) : s = t := by
  cases s
  cases t
  exact congrArg String.mk h

theorem candKey_inj (base : String) : Function.Injective (candKey base) := by
  intro n m h
  have hd : (base ++ "_" ++ natRepr n).data = (base ++ "_" ++ natRepr m).data :=
    congrArg String.data h
  have hd' : (base ++ "_").data ++ (natRepr n).data = (base ++ "_").data ++ (natRepr m).data := hd
  have := List.append_cancel_left hd'
  exact natRepr_inj (string_data_inj this)

theorem exists_fresh (base : String) (keys : List String) :
    ∃ n, candKey base (n + 1) ∉ keys := by
  by_contra hall
  push_neg at hall
  have hinj : Function.Injective fun n : ℕ => candKey base (n + 1) := by
    intro n m h
    have := candKey_inj base h
    omega
  have hnodup : ((List.range (keys.length + 1)).map fun n => candKey base (n + 1)).Nodup :=
    (List.nodup_range _).map hinj
  have hsub : ((List.range (keys.length + 1)).map fun n => candKey base (n + 1)) ⊆ keys := by
    intro x hx
    rcases List.mem_map.mp hx with ⟨n, _, rfl⟩
    exact hall n
  have hle := (List.subperm_of_subset hnodup hsub).length_le
  simp at hle

/-- The suffix at which the `while f"..." in dict` probe loop of
`evaluate_county_applications` stops: the least positive suffix whose
candidate key is unused. -/
def freshSuffix (base : String) (keys : List String) : ℕ :=
  Nat.find (exists_fresh base keys)

/-- The deduplicated key the collision branch produces. -/
def dedup_key (base : String) (keys : List String) : String :=
  candKey base (freshSuffix base keys + 1)

theorem dedup_key_not_mem (base : String) (keys : List String) :
    dedup_key base keys ∉ keys :=
  Nat.find_spec (exists_fresh base keys)

/-- Base key chosen by `evaluate_county_applications` for a raw id: blank
raw ids get the generated `unknown_(n)` fallback with `n` one past the
current map size. -/
def canon_base (keys : List String) (raw : String) : String :=
  if isBlank raw then "unknown_" ++ natRepr (keys.length + 1) else raw

/-- Canonical key after the collision probe. -/
def canon_app_id (keys : List String) (raw : String) : String :=
  if canon_base keys raw ∈ keys then dedup_key (canon_base keys raw) keys
  else canon_base keys raw

theorem canon_app_id_not_mem (keys : List String) (raw : String) :
    canon_app_id keys raw ∉ keys := by
  unfold canon_app_id
  split
  · exact dedup_key_not_mem _ _
  · assumption

/-- One iteration of the application loop of
`evaluate_county_applications`: the three control paths (success, timeout,
other exception) each append exactly one entry to the results map under a
canonical key. -/
def resultStep (acc : List (String × SingleResult)) (p : AppRec × Outcome) :
    List (String × SingleResult) :=
  match p.2 with
  | .ok ev =>
    let key := canon_app_id (acc.map Prod.fst) (pyOrStr p.1.application_id ev.application_id)
    acc ++ [(key, { ev with application_id := key })]
  | .timeout =>
    let key := canon_app_id (acc.map Prod.fst) (p.1.application_id.getD "")
    acc ++ [(key,
      { application_id := key, eligible := false,
        error := some "Evaluation timed out after 60 seconds",
        failure_reasons := ["Evaluation timeout"] })]
  | .failure msg =>
    let key := canon_app_id (acc.map Prod.fst) (p.1.application_id.getD "")
    acc ++ [(key,
      { application_id := key, eligible := false,
        error := some ("Evaluation failed: " ++ msg),
        failure_reasons := ["Evaluation error"] })]

/-- Model of the results map built by
`KJETCountyEvaluator.evaluate_county_applications` over the application
pool paired with each evaluation outcome; insertion order is kept, mirroring
a Python dict. -/
def evaluate_county_applications (pairs : List (AppRec × Outcome)) :
    List (String × SingleResult) :=
  pairs.foldl resultStep []

/-- The entry one loop iteration appends, as a function of the accumulated
map and the pair processed. -/
def stepEntry (acc : List (String × SingleResult)) (p : AppRec × Outcome) :
    String × SingleResult :=
  match p.2 with
  | .ok ev =>
    let key := canon_app_id (acc.map Prod.fst) (pyOrStr p.1.application_id ev.application_id)
    (key, { ev with application_id := key })
  | .timeout =>
    let key := canon_app_id (acc.map Prod.fst) (p.1.application_id.getD "")
    (key,
      { application_id := key, eligible := false,
        error := some "Evaluation timed out after 60 seconds",
        failure_reasons := ["Evaluation timeout"] })
  | .failure msg =>
    let key := canon_app_id (acc.map Prod.fst) (p.1.application_id.getD "")
    (key,
      { application_id := key, eligible := false,
        error := some ("Evaluation failed: " ++ msg),
        failure_reasons := ["Evaluation error"] })

theorem resultStep_eq_append (acc : List (String × SingleResult)) (p : AppRec × Outcome) :
    ∃ x, resultStep acc p = acc ++ [x] := by
  rcases p with ⟨app, o⟩
  cases o <;> exact ⟨_, rfl⟩

theorem resultStep_length (acc : List (String × SingleResult)) (p : AppRec × Outcome) :
    (resultStep acc p).length = acc.length + 1 := by
  rcases resultStep_eq_append acc p with ⟨x, hx⟩
  simp [hx]

theorem foldl_resultStep_length :
    ∀ (pairs : List (AppRec × Outcome)) (acc : List (String × SingleResult)),
      (List.foldl resultStep acc pairs).length = acc.length + pairs.length := by
  intro pairs
  induction pairs with
  | nil => intro acc; simp
  | cons p ps ih =>
    intro acc
    simp only [List.foldl_cons, List.length_cons]
    rw [ih, resultStep_length]
    omega

theorem resultStep_keys_nodup (acc : List (String × SingleResult)) (p : AppRec × Outcome)
    (h : (acc.map Prod.fst).Nodup) : ((resultStep acc p).map Prod.fst).Nodup := by
  rcases p with ⟨app, o⟩
  cases o <;>
    · simp only [resultStep, List.map_append, List.map_cons, List.map_nil]
      rw [List.nodup_append]
      exact ⟨h, List.nodup_singleton _, by
        intro x hx hx'
        simp only [List.mem_singleton] at hx'
        subst hx'
        exact canon_app_id_not_mem _ _ hx⟩

theorem foldl_resultStep_nodup :
    ∀ (pairs : List (AppRec × Outcome)) (acc : List (String × SingleResult)),
      (acc.map Prod.fst).Nodup → ((List.foldl resultStep acc pairs).map Prod.fst).Nodup := by
  intro pairs
  induction pairs with
  | nil => intro acc h; simpa using h
  | cons p ps ih =>
    intro acc h
    exact ih (resultStep acc p) (resultStep_keys_nodup acc p h)

theorem foldl_resultStep_id_eq_key :
    ∀ (pairs : List (AppRec × Outcome)) (acc : List (String × SingleResult)),
      (∀ r ∈ acc, r.2.application_id = r.1) →
      ∀ r ∈ List.foldl resultStep acc pairs, r.2.application_id = r.1 := by
  intro pairs
  induction pairs with
  | nil => intro acc h; simpa using h
  | cons p ps ih =>
    intro acc h
    refine ih (resultStep acc p) ?_
    intro r hr
    rcases p with ⟨app, o⟩
    cases o <;>
      · simp only [resultStep, List.mem_append, List.mem_singleton] at hr
        rcases hr with hr | hr
        · exact h r hr
        · subst hr; rfl

/-- Boolean check that one results-map entry reflects the outcome of its
application: a successful evaluation is stored as produced, and a timeout or
exception is stored ineligible with the corresponding error note and
failure reason. -/
def entryMatchesB (p : AppRec × Outcome) (r : String × SingleResult) : Bool :=
  match p.2 with
  | .ok ev =>
    decide (r.2.eligible = ev.eligible) && decide (r.2.error = ev.error) &&
    decide (r.2.failure_reasons = ev.failure_reasons)
  | .timeout =>
    decide (r.2.eligible = false) &&
    decide (r.2.error = some "Evaluation timed out after 60 seconds") &&
    decide (r.2.failure_reasons = ["Evaluation timeout"])
  | .failure msg =>
    decide (r.2.eligible = false) &&
    decide (r.2.error = some ("Evaluation failed: " ++ msg)) &&
    decide (r.2.failure_reasons = ["Evaluation error"])

/-- Default pair used with `List.getD` over the input pool. -/
def defaultPair : AppRec × Outcome := (⟨none⟩, Outcome.timeout)

/-- Default entry used with `List.getD` over the results map. -/
def defaultRes : String × SingleResult := ("", default)

theorem foldl_resultStep_get?_frozen :
    ∀ (pairs : List (AppRec × Outcome)) (acc : List (String × SingleResult)) (n : ℕ),
      n < acc.length → (List.foldl resultStep acc pairs).get? n = acc.get? n := by
  intro pairs
  induction pairs with
  | nil => intro acc n _; rfl
  | cons p ps ih =>
    intro acc n hn
    rcases resultStep_eq_append acc p with ⟨x, hx⟩
    have h1 : n < (resultStep acc p).length := by rw [resultStep_length]; omega
    rw [List.foldl_cons, ih (resultStep acc p) n h1, hx, List.get?_append hn]

theorem resultStep_eq (acc : List (String × SingleResult)) (p : AppRec × Outcome) :
    resultStep acc p = acc ++ [stepEntry acc p] := by
  rcases p with ⟨app, o⟩
  cases o <;> rfl

theorem entryMatchesB_stepEntry (acc : List (String × SingleResult)) (p : AppRec × Outcome) :
    entryMatchesB p (stepEntry acc p) = true := by
  rcases p with ⟨app, o⟩
  cases o <;> simp [stepEntry, entryMatchesB]

theorem foldl_resultStep_matches :
    ∀ (pairs : List (AppRec × Outcome)) (acc : List (String × SingleResult)) (i : ℕ),
      i < pairs.length →
      entryMatchesB (pairs.getD i defaultPair)
        ((List.foldl resultStep acc pairs).getD (acc.length + i) defaultRes) = true := by
  intro pairs
  induction pairs with
  | nil => intro acc i h; simp at h
  | cons p ps ih =>
    intro acc i h
    cases i with
    | zero =>
      have hfrozen : (List.foldl resultStep (resultStep acc p) ps).get? acc.length =
          (resultStep acc p).get? acc.length := by
        apply foldl_resultStep_get?_frozen
        rw [resultStep_length]
        omega
      have hget : (resultStep acc p).get? acc.length = some (stepEntry acc p) := by
        rw [resultStep_eq]
        exact List.get?_concat_length acc _
      have hval : (List.foldl resultStep acc (p :: ps)).getD (acc.length + 0) defaultRes =
          stepEntry acc p := by
        show ((List.foldl resultStep (resultStep acc p) ps).get? (acc.length + 0)).getD _ = _
        rw [Nat.add_zero, hfrozen, hget]
        rfl
      rw [hval]
      show entryMatchesB p (stepEntry acc p) = true
      exact entryMatchesB_stepEntry acc p
    | succ i' =>
      have h' : i' < ps.length := by simpa using h
      have hh := ih (resultStep acc p) i' h'
      rw [resultStep_length] at hh
      have harith : acc.length + (i' + 1) = acc.length + 1 + i' := by omega
      simpa [List.foldl_cons, harith, List.getD_cons_succ] using hh

def tieA : PoolEntry :=
  { application_id := "AAA", composite_score := 80, s_registration_track_record := 3,
    s_financial_position := 4, s_market_demand_competitiveness := 4,
    s_business_proposal_viability := 5, s_value_chain_alignment := 4,
    s_inclusivity_sustainability := 3, is_c1_alternate := false }

def tieB : PoolEntry :=
  { tieA with application_id := "BBB" }

def emptyAppC2 : AppC2 := { csv_metadata := none, financial_documents_count := 0 }

/-- Pool entry with all score fields zero, used as a `getD` default. -/
def defaultPoolEntry : PoolEntry :=
  { application_id := "", composite_score := 0, s_registration_track_record := 0,
    s_financial_position := 0, s_market_demand_competitiveness := 0,
    s_business_proposal_viability := 0, s_value_chain_alignment := 0,
    s_inclusivity_sustainability := 0, is_c1_alternate := false }

/-- Ranked entry used as a `getD` default. -/
def defaultRankedEntry : RankedEntry :=
  { entry := defaultPoolEntry, rank := 0, tier := none }

/-- Raw scores all equal to five, for witness instantiation. -/
def rawFive : RawScores := ⟨5, 5, 5, 5, 5, 5⟩

/-- Claim C1: for raw scores in 0..5 and nonnegative cohort weights summing
to 1, the composite of `score_application` equals
round(sum(raw/5*100*weight), 2) and lies between 0 and 100 inclusive, and
the county evaluator composite (which normalises by `score * 20`) computes
the same value. -/
theorem composite_score_formula_and_bounds (w : Weights) (r : RawScores)
    (hr : r.InRange) (hw : w.Valid) :
    score_application_composite w r = round2 (weightedTotal w r) ∧
    0 ≤ score_application_composite w r ∧ score_application_composite w r ≤ 100 ∧
    county_composite w r = score_application_composite w r := by
  have hb := weightedTotal_bounds hr hw
  refine ⟨rfl, round2_nonneg hb.1, round2_le_100 hb.2, ?_⟩
  unfold county_composite score_application_composite weightedTotal
  congr 1
  ring

/-- Witness for C1: the cohort-2 weights with all raw scores at 5. -/
theorem composite_score_formula_and_bounds_witness :
    score_application_composite cohort2_weights rawFive =
      round2 (weightedTotal cohort2_weights rawFive) ∧
    0 ≤ score_application_composite cohort2_weights rawFive ∧
    score_application_composite cohort2_weights rawFive ≤ 100 ∧
    county_composite cohort2_weights rawFive =
      score_application_composite cohort2_weights rawFive :=
  composite_score_formula_and_bounds cohort2_weights rawFive
    (by norm_num [RawScores.InRange, rawFive])
    (by norm_num [Weights.Valid, cohort2_weights])

/-- Claim C2 counterexample: two distinct entries with identical sort keys
but different application ids are left in input order by the region sort in
both input orders, so the comparator does not consult the application id and
the output order is not fully determined by the claimed keys. -/
theorem region_sort_ignores_application_id :
    sort_key tieA = sort_key tieB ∧ tieA ≠ tieB ∧
    tieA.application_id ≠ tieB.application_id ∧
    pySortPool [tieA, tieB] = [tieA, tieB] ∧
    pySortPool [tieB, tieA] = [tieB, tieA] :=
  ⟨by decide, by decide, by decide, by decide, by decide⟩

/-- Claim C2 (amended): the region sort orders entries ascending in the
cohort tie-break key (descending composite, then the secondary criterion
scores descending); the output is a permutation of the input, and entries
with equal keys keep their input order (stable sort) — the application id is
not used as a final tie-break. -/
theorem region_sort_sorted_perm_stable (l : List PoolEntry) :
    List.Perm (pySortPool l) l ∧ List.Sorted keyRel (pySortPool l) ∧
    ∀ k : List ℚ, (pySortPool l).filter (fun e => decide (sort_key e = k)) =
      l.filter (fun e => decide (sort_key e = k)) :=
  ⟨List.perm_insertionSort keyRel l, List.sorted_insertionSort keyRel l,
    fun k => filter_pySortPool k l⟩

/-- Claim C3: the ranked output has the input length, its ranks are exactly
the contiguous sequence 1..N, the entry at position i has rank i+1, and its
tier is non-none exactly when its rank is at most `top_n`. -/
theorem ranks_contiguous_and_tier_iff_topn (tierOf : PoolEntry → String) (topN : ℕ)
    (l : List PoolEntry) (i : ℕ) (h : i < l.length) :
    (assignRanks tierOf topN l).length = l.length ∧
    (assignRanks tierOf topN l).map RankedEntry.rank = List.range' 1 l.length ∧
    ((assignRanks tierOf topN l).getD i defaultRankedEntry).rank = i + 1 ∧
    (((assignRanks tierOf topN l).getD i defaultRankedEntry).tier ≠ none ↔
      ((assignRanks tierOf topN l).getD i defaultRankedEntry).rank ≤ topN) := by
  have hlen := assignRanksGo_length tierOf topN l 0
  have hmap := assignRanksGo_map_rank tierOf topN l 0
  have hrank := assignRanksGo_getD_rank tierOf topN defaultRankedEntry l 0 i h
  have htier := assignRanksGo_getD_tier tierOf topN defaultRankedEntry l 0 i h
  refine ⟨hlen, by simpa using hmap, by simpa using hrank, ?_⟩
  show ((assignRanksGo tierOf topN 0 l).getD i defaultRankedEntry).tier ≠ none ↔ _
  rw [htier]
  have hr : ((assignRanksGo tierOf topN 0 l).getD i defaultRankedEntry).rank = 0 + i + 1 := hrank
  show _ ↔ ((assignRanksGo tierOf topN 0 l).getD i defaultRankedEntry).rank ≤ topN
  rw [hr]
  omega

/-- Witness for C3 at a two-entry pool with `top_n = 1`, position 1. -/
theorem ranks_contiguous_and_tier_iff_topn_witness :
    1 < ([tieA, tieB] : List PoolEntry).length ∧
    ((assignRanks get_tier_logic_c2 1 [tieA, tieB]).length = ([tieA, tieB] : List PoolEntry).length ∧
     (assignRanks get_tier_logic_c2 1 [tieA, tieB]).map RankedEntry.rank =
       List.range' 1 ([tieA, tieB] : List PoolEntry).length ∧
     ((assignRanks get_tier_logic_c2 1 [tieA, tieB]).getD 1 defaultRankedEntry).rank = 1 + 1 ∧
     (((assignRanks get_tier_logic_c2 1 [tieA, tieB]).getD 1 defaultRankedEntry).tier ≠ none ↔
       ((assignRanks get_tier_logic_c2 1 [tieA, tieB]).getD 1 defaultRankedEntry).rank ≤ 1)) :=
  ⟨by decide, ranks_contiguous_and_tier_iff_topn get_tier_logic_c2 1 [tieA, tieB] 1 (by decide)⟩

/-- Claim C4: in the county evaluator, the overall eligible flag equals the
conjunction of the five gate results and the scoring payload is present
exactly for eligible applications; in the analyzer, the eligible flag is
true exactly when all five cohort-2 gate results are true, and scores are
produced exactly for eligible applications. -/
theorem eligible_iff_all_gates_and_scoring_iff_eligible :
    (∀ (α : Type) (g : GateResults) (sr : α),
      (evaluate_single_application g sr).eligible =
        (g.e1 && g.e2 && g.e3 && g.e4 && g.e5) ∧
      ((evaluate_single_application g sr).scoring ≠ none ↔
        (evaluate_single_application g sr).eligible = true)) ∧
    (∀ (a : AppC2) (content : String),
      ((KJETAnalyzer.analyze_eligibility a content).eligible = true ↔
        ((Cohort2Strategy.check_eligibility a content).e1_registration_legality = true ∧
         (Cohort2Strategy.check_eligibility a content).e2_county_mapping = true ∧
         (Cohort2Strategy.check_eligibility a content).e3_priority_value_chain = true ∧
         (Cohort2Strategy.check_eligibility a content).e4_financial_evidence = true ∧
         (Cohort2Strategy.check_eligibility a content).e5_consent_contactability = true)) ∧
      (KJETAnalyzer.analyze_one a content ≠ none ↔
        (KJETAnalyzer.analyze_eligibility a content).eligible = true)) := by
  constructor
  · intro α g sr
    refine ⟨rfl, ?_⟩
    by_cases hE : (g.e1 && g.e2 && g.e3 && g.e4 && g.e5) = true <;>
      simp [evaluate_single_application, hE]
  · intro a content
    constructor
    · simp [KJETAnalyzer.analyze_eligibility, Bool.and_eq_true, and_assoc]
    · unfold KJETAnalyzer.analyze_one
      split <;> simp_all

/-- Claim C5: the cross-round blender admits exactly the prior-round records
with recorded rank 3 or 4 of the county, each admitted record has its six
per-criterion scores divided by 20 and is tagged as an alternate, and the
per-county analysis ranks the current entries extended with the alternates
through the same sort comparator (the blended pool is sorted by the cohort
key and is a permutation of current ++ alternates). -/
theorem alternates_rank_band_rescaled_and_blended (county : String) (recs : List C1Record)
    (cur : List PoolEntry) (topN : ℕ) :
    (∀ e : PoolEntry, e ∈ load_cohort1_alternates county recs ↔
      ∃ r : C1Record, r ∈ recs ∧
        (r.ranking_from_composite = some 3 ∨ r.ranking_from_composite = some 4) ∧
        r.county_field = county ∧ e = alternate_entry r) ∧
    (∀ r : C1Record,
      (alternate_entry r).s_registration_track_record = r.a31 / 20 ∧
      (alternate_entry r).s_financial_position = r.a32 / 20 ∧
      (alternate_entry r).s_market_demand_competitiveness = r.a33 / 20 ∧
      (alternate_entry r).s_business_proposal_viability = r.a34 / 20 ∧
      (alternate_entry r).s_value_chain_alignment = r.a35 / 20 ∧
      (alternate_entry r).s_inclusivity_sustainability = r.a36 / 20 ∧
      (alternate_entry r).is_c1_alternate = true) ∧
    run_analysis_county topN cur county recs =
      assignRanks get_tier_logic_c2 topN
        (pySortPool (cur ++ load_cohort1_alternates county recs)) ∧
    List.Perm (pySortPool (cur ++ load_cohort1_alternates county recs))
      (cur ++ load_cohort1_alternates county recs) ∧
    List.Sorted keyRel (pySortPool (cur ++ load_cohort1_alternates county recs)) := by
  refine ⟨?_, fun r => ⟨rfl, rfl, rfl, rfl, rfl, rfl, rfl⟩, rfl,
    List.perm_insertionSort keyRel _, List.sorted_insertionSort keyRel _⟩
  intro e
  simp only [load_cohort1_alternates, List.mem_map, List.mem_filter, rankIn34,
    Bool.and_eq_true, decide_eq_true_eq]
  constructor
  · rintro ⟨r, ⟨hr, h34, hcounty⟩, rfl⟩
    exact ⟨r, hr, h34, hcounty, rfl⟩
  · rintro ⟨r, hr, h34, hcounty, rfl⟩
    exact ⟨r, ⟨hr, h34, hcounty⟩, rfl⟩

/-- Claim C6 counterexample: for an application with no structured metadata
and empty content, the cohort-2 scorer does not default the affected
criterion scores to 0 as the claim states: the business-proposal score is 3,
the registration score is 3 and the value-chain score is 4. -/
theorem missing_fields_scores_not_zero :
    (Cohort2Strategy.calculate_scores emptyAppC2 "").business_proposal_viability = 3 ∧
    (Cohort2Strategy.calculate_scores emptyAppC2 "").business_proposal_viability ≠ 0 ∧
    (Cohort2Strategy.calculate_scores emptyAppC2 "").registration_track_record = 3 ∧
    (Cohort2Strategy.calculate_scores emptyAppC2 "").value_chain_alignment = 4 ∧
    emptyAppC2.csv_metadata = none ∧ emptyAppC2.financial_documents_count = 0 := by
  decide

/-- Claim C6 (amended): for an application whose structured fields are all
missing and whose content is empty, every field-dependent gate (E1, E3, E4)
evaluates to false while the unconditionally-true gates E2 and E5 stay true,
and the criterion scores fall back to the fixed defaults (3, 0 for the
financial position without documents, 3, 3, 4, 3) rather than raising; an
unparseable turnover string likewise falls back to a financial score of 3.
Evaluation is total, so processing continues. -/
theorem missing_fields_fail_closed_gates_default_scores (a : AppC2)
    (h1 : a.csv_metadata = none) (h2 : a.financial_documents_count = 0) :
    Cohort2Strategy.check_eligibility a "" =
      { e1_registration_legality := false, e2_county_mapping := true,
        e3_priority_value_chain := false, e4_financial_evidence := false,
        e5_consent_contactability := true } ∧
    Cohort2Strategy.calculate_scores a "" =
      { registration_track_record := 3, financial_position := 0,
        market_demand_competitiveness := 3, business_proposal_viability := 3,
        value_chain_alignment := 4, inclusivity_sustainability := 3 } ∧
    Cohort2Strategy.calculate_scores
        ⟨some { emptyCsvMeta with turnover_2024 := some "abc" }, 0⟩ "" =
      { registration_track_record := 3, financial_position := 3,
        market_demand_competitiveness := 3, business_proposal_viability := 3,
        value_chain_alignment := 4, inclusivity_sustainability := 3 } := by
  rcases a with ⟨m, f⟩
  dsimp only at h1 h2
  subst h1
  subst h2
  exact ⟨by decide, by decide, by decide⟩

/-- Witness for the amended C6 at the concrete empty application. -/
theorem missing_fields_fail_closed_witness :
    Cohort2Strategy.check_eligibility emptyAppC2 "" =
      { e1_registration_legality := false, e2_county_mapping := true,
        e3_priority_value_chain := false, e4_financial_evidence := false,
        e5_consent_contactability := true } ∧
    Cohort2Strategy.calculate_scores emptyAppC2 "" =
      { registration_track_record := 3, financial_position := 0,
        market_demand_competitiveness := 3, business_proposal_viability := 3,
        value_chain_alignment := 4, inclusivity_sustainability := 3 } ∧
    Cohort2Strategy.calculate_scores
        ⟨some { emptyCsvMeta with turnover_2024 := some "abc" }, 0⟩ "" =
      { registration_track_record := 3, financial_position := 3,
        market_demand_competitiveness := 3, business_proposal_viability := 3,
        value_chain_alignment := 4, inclusivity_sustainability := 3 } :=
  missing_fields_fail_closed_gates_default_scores emptyAppC2 rfl rfl

/-- Claim C7: every per-criterion scoring function returns an integer score
between 0 and 5 inclusive, for every application, content string and
extracted signal value (the clamp holds regardless of signal counts), both
in the county evaluator and in the agentic CSV generator. -/
theorem criterion_scores_within_zero_to_five :
    (∀ (y : ℕ) (content : String),
      0 ≤ KJETCountyEvaluator.score_registration_track_record y content ∧
      KJETCountyEvaluator.score_registration_track_record y content ≤ 5) ∧
    (∀ (t : ℚ) (a : CountyApp) (content : String),
      0 ≤ KJETCountyEvaluator.score_financial_position t a content ∧
      KJETCountyEvaluator.score_financial_position t a content ≤ 5) ∧
    (∀ content : String,
      0 ≤ KJETCountyEvaluator.score_market_demand content ∧
      KJETCountyEvaluator.score_market_demand content ≤ 5) ∧
    (∀ content : String,
      0 ≤ KJETCountyEvaluator.score_business_proposal content ∧
      KJETCountyEvaluator.score_business_proposal content ≤ 5) ∧
    (∀ (a : CountyApp) (content : String),
      0 ≤ KJETCountyEvaluator.score_value_chain_alignment a content ∧
      KJETCountyEvaluator.score_value_chain_alignment a content ≤ 5) ∧
    (∀ content : String,
      0 ≤ KJETCountyEvaluator.score_inclusivity_sustainability content ∧
      KJETCountyEvaluator.score_inclusivity_sustainability content ≤ 5) ∧
    (∀ age : ℤ, 0 ≤ AgenticCsv.s1_score age ∧ AgenticCsv.s1_score age ≤ 5) ∧
    (∀ (rev : ℚ) (acc : String),
      0 ≤ AgenticCsv.s2_score rev acc ∧ AgenticCsv.s2_score rev acc ≤ 5) ∧
    (∀ b2b : ℚ, 0 ≤ AgenticCsv.s3_score b2b ∧ AgenticCsv.s3_score b2b ≤ 5) ∧
    (∀ strategy : String,
      0 ≤ AgenticCsv.s4_score strategy ∧ AgenticCsv.s4_score strategy ≤ 5) ∧
    (0 ≤ AgenticCsv.s5_score ∧ AgenticCsv.s5_score ≤ 5) ∧
    (∀ woman : String, 0 ≤ AgenticCsv.s6_score woman ∧ AgenticCsv.s6_score woman ≤ 5) := by
  refine ⟨?_, ?_, ?_, ?_, ?_, ?_, ?_, ?_, ?_, ?_, ?_, ?_⟩
  · intro y content
    exact ⟨Nat.zero_le _, by
      simp only [KJETCountyEvaluator.score_registration_track_record]
      exact Nat.min_le_right _ _⟩
  · intro t a content
    exact ⟨Nat.zero_le _, by
      simp only [KJETCountyEvaluator.score_financial_position]
      exact Nat.min_le_right _ _⟩
  · intro content
    exact ⟨Nat.zero_le _, by
      simp only [KJETCountyEvaluator.score_market_demand]
      exact Nat.min_le_right _ _⟩
  · intro content
    exact ⟨Nat.zero_le _, by
      simp only [KJETCountyEvaluator.score_business_proposal]
      exact Nat.min_le_right _ _⟩
  · intro a content
    exact ⟨Nat.zero_le _, by
      simp only [KJETCountyEvaluator.score_value_chain_alignment]
      exact Nat.min_le_right _ _⟩
  · intro content
    exact ⟨Nat.zero_le _, by
      simp only [KJETCountyEvaluator.score_inclusivity_sustainability]
      exact Nat.min_le_right _ _⟩
  · intro age
    refine ⟨Nat.zero_le _, ?_⟩
    unfold AgenticCsv.s1_score
    split_ifs <;> omega
  · intro rev acc
    refine ⟨Nat.zero_le _, ?_⟩
    unfold AgenticCsv.s2_score
    split_ifs <;> decide
  · intro b2b
    refine ⟨Nat.zero_le _, ?_⟩
    unfold AgenticCsv.s3_score
    split_ifs <;> omega
  · intro strategy
    refine ⟨Nat.zero_le _, ?_⟩
    unfold AgenticCsv.s4_score
    split_ifs <;> omega
  · exact ⟨Nat.zero_le _, by decide⟩
  · intro woman
    refine ⟨Nat.zero_le _, ?_⟩
    unfold AgenticCsv.s6_score
    split_ifs <;> omega

/-- Claim C8: a timed-out or failed evaluation of one application does not
abort the pool: the results map has exactly one entry per processed
application, and an entry at a failing position is recorded ineligible with
the error note and failure reason, while every other position carries its
produced evaluation. -/
theorem failure_isolation_per_application (pairs : List (AppRec × Outcome)) (i : ℕ)
    (h : i < pairs.length) :
    (evaluate_county_applications pairs).length = pairs.length ∧
    entryMatchesB (pairs.getD i defaultPair)
      ((evaluate_county_applications pairs).getD i defaultRes) = true := by
  constructor
  · simpa [evaluate_county_applications] using foldl_resultStep_length pairs []
  · simpa [evaluate_county_applications] using foldl_resultStep_matches pairs [] i h

/-- Successful evaluation records used by the C8 witness. -/
def okResA : SingleResult :=
  { application_id := "A1", eligible := true, error := none, failure_reasons := [] }

/-- Second successful evaluation record used by the C8 witness. -/
def okResC : SingleResult :=
  { application_id := "A3", eligible := true, error := none, failure_reasons := [] }

/-- Three applications, the middle one raising an exception. -/
def witnessPairs : List (AppRec × Outcome) :=
  [(⟨some "A1"⟩, Outcome.ok okResA), (⟨some "A2"⟩, Outcome.failure "boom"),
   (⟨some "A3"⟩, Outcome.ok okResC)]

/-- Witness for C8 at the failing middle position of a three-element pool. -/
theorem failure_isolation_per_application_witness :
    1 < witnessPairs.length ∧
    ((evaluate_county_applications witnessPairs).length = witnessPairs.length ∧
     entryMatchesB (witnessPairs.getD 1 defaultPair)
       ((evaluate_county_applications witnessPairs).getD 1 defaultRes) = true) :=
  ⟨by decide, failure_isolation_per_application witnessPairs 1 (by decide)⟩

/-- Claim C9: the per-county results map has pairwise distinct keys (so no
entry is overwritten), exactly one entry per processed application, and each
entry records its canonical key as its application id. -/
theorem results_map_unique_keys_one_entry_per_application
    (pairs : List (AppRec × Outcome)) :
    ((evaluate_county_applications pairs).map Prod.fst).Nodup ∧
    (evaluate_county_applications pairs).length = pairs.length ∧
    List.Forall (fun r => r.2.application_id = r.1) (evaluate_county_applications pairs) := by
  refine ⟨foldl_resultStep_nodup pairs [] (by simp),
    by simpa [evaluate_county_applications] using foldl_resultStep_length pairs [], ?_⟩
  rw [List.forall_iff_forall_mem]
  exact foldl_resultStep_id_eq_key pairs [] (by simp)

/-- Claim C10: the value-chain alignment score is always between 1 and 5
(never 0), and equals exactly 1 whenever the application is not in a
priority value chain, so the rubric 0 level is unreachable. -/
theorem value_chain_score_one_to_five (a : CountyApp) (content : String) :
    1 ≤ KJETCountyEvaluator.score_value_chain_alignment a content ∧
    KJETCountyEvaluator.score_value_chain_alignment a content ≤ 5 ∧
    (KJETCountyEvaluator.evaluate_value_chain a content = false →
      KJETCountyEvaluator.score_value_chain_alignment a content = 1) := by
  refine ⟨?_, ?_, ?_⟩
  · simp only [KJETCountyEvaluator.score_value_chain_alignment]
    split_ifs <;> omega
  · simp only [KJETCountyEvaluator.score_value_chain_alignment]
    exact Nat.min_le_right _ _
  · intro hfalse
    simp only [KJETCountyEvaluator.score_value_chain_alignment, hfalse]
    simp

/-- Witness for C10 at an application with no value chains and empty
content. -/
theorem value_chain_score_one_to_five_witness :
    KJETCountyEvaluator.evaluate_value_chain ⟨[], 0⟩ "" = false ∧
    KJETCountyEvaluator.score_value_chain_alignment ⟨[], 0⟩ "" = 1 :=
  ⟨by decide, (value_chain_score_one_to_five ⟨[], 0⟩ "").2.2 (by decide)⟩

end KJET
